import Mathlib

/-!
# WiFi billing backend (server.js): request / confirm workflow

A shallow embedding of the one source file of the repository, `src/server.js`:
the `transactions` table, the package catalog, the two token generators and the
three JSON routes (`POST /api/request-access`, `POST /api/confirm-payment`,
`GET /api/transactions`), followed by the properties proved about them.

Modelling conventions.
* The SQLite table is a list of rows in rowid order together with the
  `sqlite_sequence` counter kept by `AUTOINCREMENT`.  Row ids are natural
  numbers (the 64-bit rowid ceiling is not modelled).
* Every read of the outside world a handler performs is an explicit input,
  gathered in `Env`: the clock, the bytes returned by `crypto.randomBytes` and
  the host's date formatting.
* A handler returns the new store, the HTTP response and the list of SMS
  messages handed to `sendSMS`.
* JSON body fields are a string or absent.
* Requests are served one at a time: a handler and its database callbacks run
  to completion before the next request (interleavings of concurrent requests
  are not modelled).
* The three clock reads of a request-access call (`Date.now()`, `new Date()`,
  `CURRENT_TIMESTAMP`) are one value.
* The only database failures modelled are the constraint violations of the
  schema (`UNIQUE` on `code`, `NOT NULL` on `amount`).
-/

namespace WifiBilling

/-! ## Data model: the `transactions` table (server.js 14-25) -/

/-- Values of the `status` column: the default `'pending'` and the only value
ever written by an `UPDATE`, `"paid"`. -/
inductive Status where
  | pending
  | paid
deriving DecidableEq, Repr

/-- One row of `transactions`.  `created_at` is `CURRENT_TIMESTAMP`, which has
a resolution of one second, so it is kept in seconds; `expires_at` is the
JavaScript date written by the handler, in milliseconds. -/
structure Transaction where
  id : Nat
  phone : String
  package : String
  amount : Nat
  code : String
  username : String
  password : String
  status : Status
  created_at : Nat
  expires_at : Nat
deriving DecidableEq, Repr

/-- The database: the rows in rowid order and the `AUTOINCREMENT` counter
(largest id ever handed out). -/
structure Store where
  rows : List Transaction
  seq : Nat
deriving DecidableEq, Repr

/-- The database right after `CREATE TABLE IF NOT EXISTS` on a fresh file. -/
def Store.empty : Store := ⟨[], 0⟩

/-- The codes present in the table. -/
def Store.codes (s : Store) : List String := s.rows.map (fun t => t.code)

/-- Largest id among the rows (0 for an empty table). -/
def maxId (rows : List Transaction) : Nat := rows.foldr (fun t m => max t.id m) 0

/-- The id `AUTOINCREMENT` gives to the next inserted row: one more than the
largest id ever used. -/
def Store.nextId (s : Store) : Nat := max s.seq (maxId s.rows) + 1

/-! ## Package catalog (server.js 32-37) -/

/-- A catalog entry. -/
structure Package where
  duration : String
  price : Nat
  name : String
deriving DecidableEq, Repr

/-- The own properties of the object literal `PACKAGES`. -/
def PACKAGES : List (String × Package) :=
  [ ("1h", ⟨"1h", 10, "1 Hour"⟩),
    ("6h", ⟨"6h", 20, "6 Hours"⟩),
    ("12h", ⟨"12h", 30, "12 Hours"⟩),
    ("1d", ⟨"1d", 50, "1 Day"⟩) ]

/-- Property names that every object literal inherits from `Object.prototype`.
`PACKAGES[key]` finds them through the prototype chain. -/
def objectPrototypeKeys : List String :=
  [ "constructor", "__proto__", "hasOwnProperty", "isPrototypeOf",
    "propertyIsEnumerable", "toLocaleString", "toString", "valueOf",
    "__defineGetter__", "__defineSetter__", "__lookupGetter__", "__lookupSetter__" ]

/-- The value of the expression `PACKAGES[key]`. -/
inductive Lookup where
  /-- an own property: a catalog entry -/
  | entry (p : Package)
  /-- a member inherited from `Object.prototype` (a function or an object) -/
  | inherited
  /-- the value `undefined` -/
  | undefined
deriving DecidableEq, Repr

/-- Evaluation of `PACKAGES[key]`: own properties first, then the prototype. -/
def getPackage (key : String) : Lookup :=
  match PACKAGES.lookup key with
  | some p => .entry p
  | none => if key ∈ objectPrototypeKeys then .inherited else .undefined

/-- JavaScript truthiness of `PACKAGES[key]`: only `undefined` is falsy here. -/
def Lookup.truthy : Lookup → Bool
  | .undefined => false
  | _ => true

/-- The expression `pkg.price`: `undefined` on an inherited member. -/
def Lookup.price : Lookup → Option Nat
  | .entry p => some p.price
  | _ => none

/-- The text `${pkg.name}` puts in a template literal. -/
def Lookup.nameText : Lookup → String
  | .entry p => p.name
  | _ => "undefined"

/-- The text `${pkg.price}` puts in a template literal. -/
def Lookup.priceText : Lookup → String
  | .entry p => toString p.price
  | _ => "undefined"

/-- JavaScript truthiness of a body field: absent and the empty string are falsy. -/
def truthy : Option String → Bool
  | none => false
  | some s => s != ""

/-! ## Code and credential generators (server.js 40-48) -/

/-- A byte. -/
abbrev Byte := Fin 256

/-- The result of `crypto.randomBytes(n)`: exactly `n` bytes. -/
structure RandomBytes (n : Nat) where
  bytes : List Byte
  size : bytes.length = n

/-- One lowercase hexadecimal digit, for a value below 16. -/
def hexDigit (n : Nat) : Char :=
  if n < 10 then Char.ofNat (48 + n) else Char.ofNat (87 + n)

/-- Two lowercase hexadecimal digits of a byte, high nibble first. -/
def byteToHex (b : Byte) : List Char := [hexDigit (b.val / 16), hexDigit (b.val % 16)]

/-- The call `buffer.toString('hex')`. -/
def toHex (bs : List Byte) : String := String.mk (bs.flatMap byteToHex)

/-- The call `toUpperCase()` as it acts on ASCII text. -/
def toUpperCase (s : String) : String := String.mk (s.data.map Char.toUpper)

/-- Source `generateCode`: `crypto.randomBytes(4).toString('hex').toUpperCase()`. -/
def generateCode (rb : RandomBytes 4) : String := toUpperCase (toHex rb.bytes)

/-- Source `generateCredentials`: `'user' + Date.now()` and
`crypto.randomBytes(3).toString('hex')`. -/
def generateCredentials (now : Nat) (rb : RandomBytes 3) : String × String :=
  ("user" ++ toString now, toHex rb.bytes)

/-! ## Environment, responses, notifications -/

/-- What one request reads from outside the store. -/
structure Env where
  /-- the clock, in milliseconds since the epoch -/
  now : Nat
  /-- the bytes `generateCode` draws -/
  codeBytes : RandomBytes 4
  /-- the bytes `generateCredentials` draws -/
  passBytes : RandomBytes 3
  /-- the host's `Date.prototype.toLocaleString` -/
  localeString : Nat → String

/-- An HTTP response of the JSON routes. -/
inductive Response where
  /-- status 200, body `{success: true, code, message}` -/
  | requested (code : String) (message : String)
  /-- status 200, body `{success: true, username, password, message}` -/
  | confirmed (username password : String) (message : String)
  /-- status 200, body the JSON array of rows -/
  | listing (rows : List Transaction)
  /-- any `res.status(status).json({error})` -/
  | failure (status : Nat) (error : String)
deriving DecidableEq, Repr

/-- One call of `sendSMS(phone, message)`. -/
structure SMS where
  phone : String
  message : String
deriving DecidableEq, Repr

/-- Result of a handler: new store, response, messages sent. -/
structure Outcome where
  store : Store
  response : Response
  sms : List SMS
deriving DecidableEq, Repr

/-! ## Store statements -/

/-- The row an `INSERT` of server.js 76-79 adds: the bound values, the next
`AUTOINCREMENT` id, and the column defaults `status = 'pending'`,
`created_at = CURRENT_TIMESTAMP` (whole seconds). -/
def Store.newRow (s : Store) (nowMs : Nat) (phone package : String) (amount : Nat)
    (code username password : String) (expiresAt : Nat) : Transaction :=
  { id := s.nextId, phone := phone, package := package, amount := amount, code := code,
    username := username, password := password, status := .pending,
    created_at := nowMs / 1000, expires_at := expiresAt }

/-- The statement `INSERT INTO transactions (phone, package, amount, code, username,
password, expires_at) VALUES (?, ...)`.  `amount` is `none` when the bound
JavaScript value is `undefined`, which SQLite receives as `NULL`.  Fails
(`none`) on a violated constraint: `amount INTEGER NOT NULL`, `code TEXT UNIQUE`. -/
def Store.insert (s : Store) (nowMs : Nat) (phone package : String) (amount : Option Nat)
    (code username password : String) (expiresAt : Nat) : Option Store :=
  match amount with
  | none => none
  | some a =>
    if code ∈ s.codes then none
    else
      some { rows := s.rows ++ [s.newRow nowMs phone package a code username password expiresAt],
             seq := s.nextId }

/-- The query `SELECT * FROM transactions WHERE code = ? AND status = "pending"`
read with `db.get`: the first matching row.  An absent code binds `NULL`,
which equals nothing. -/
def Store.findPending (s : Store) (code : Option String) : Option Transaction :=
  match code with
  | none => none
  | some c => s.rows.find? (fun t => decide (t.code = c) && decide (t.status = .pending))

/-- The statement `UPDATE transactions SET status = "paid" WHERE code = ?`. -/
def Store.markPaid (s : Store) (code : String) : Store :=
  { s with rows := s.rows.map (fun t => if t.code = code then { t with status := .paid } else t) }

/-- Descending order on `created_at`. -/
def newerOrEqual (a b : Transaction) : Prop := b.created_at ≤ a.created_at

instance : DecidableRel newerOrEqual := fun a b => inferInstanceAs (Decidable (b.created_at ≤ a.created_at))

/-- The query `SELECT * FROM transactions ORDER BY created_at DESC LIMIT 100`.
SQL leaves the relative order of rows with equal `created_at` open; this
model keeps them in rowid order. -/
def Store.listRecent (s : Store) : List Transaction :=
  (s.rows.insertionSort newerOrEqual).take 100

/-! ## Routes -/

/-- The expiry computed at server.js 69-73, in milliseconds: a fixed offset per
package id, none for any other id (daylight-saving shifts of the local
calendar are not modelled). -/
def expiryOf (now : Nat) (package : String) : Nat :=
  if package = "1h" then now + 1 * 3600000
  else if package = "6h" then now + 6 * 3600000
  else if package = "12h" then now + 12 * 3600000
  else if package = "1d" then now + 24 * 3600000
  else now

/-- The payment-instruction text of server.js 86-95. -/
def paymentMessage (pkg : Lookup) (code : String) : String :=
  "WiFi Access Request\nPackage: " ++ pkg.nameText ++ " - KSh " ++ pkg.priceText ++
  "\nCode: " ++ code ++
  "\n\nTo pay:\n1. Send KSh " ++ pkg.priceText ++ " to 0700000000 (M-Pesa)\n2. Use code: " ++
  code ++ " to confirm payment\n3. You'll receive login details\n\nValid for 30 minutes."

/-- The login-details text of server.js 124-130. -/
def loginMessage (env : Env) (row : Transaction) : String :=
  "Payment confirmed!\nWiFi Login:\nUsername: " ++ row.username ++ "\nPassword: " ++
  row.password ++ "\nValid until: " ++ env.localeString row.expires_at ++
  "\n\nConnect to \"FreeWiFi-Packages\" and use these details."

/-- Handler of `POST /api/request-access` (server.js 57-106). -/
def requestAccess (env : Env) (phone package : Option String) (s : Store) : Outcome :=
  match phone, package with
  | some ph, some pk =>
    if !truthy (some ph) || !truthy (some pk) || !(getPackage pk).truthy then
      ⟨s, .failure 400 "Invalid request", []⟩
    else
      let code := generateCode env.codeBytes
      let cred := generateCredentials env.now env.passBytes
      let pkg := getPackage pk
      let expiresAt := expiryOf env.now pk
      match s.insert env.now ph pk pkg.price code cred.1 cred.2 expiresAt with
      | none => ⟨s, .failure 500 "Database error", []⟩
      | some s' =>
        ⟨s', .requested code "Payment instructions sent! Check console for SMS.",
          [⟨ph, paymentMessage pkg code⟩]⟩
  | _, _ => ⟨s, .failure 400 "Invalid request", []⟩

/-- Handler of `POST /api/confirm-payment` (server.js 109-142).  The body field
`mpesa_ref` is read and never used. -/
def confirmPayment (env : Env) (code mpesa_ref : Option String) (s : Store) : Outcome :=
  let _ := mpesa_ref
  match s.findPending code, code with
  | some row, some c =>
    ⟨s.markPaid c, .confirmed row.username row.password "Check console for login details!",
      [⟨row.phone, loginMessage env row⟩]⟩
  | _, _ => ⟨s, .failure 400 "Invalid code or already used", []⟩

/-- Handler of `GET /api/transactions` (server.js 149-156). -/
def listTransactions (s : Store) : Outcome := ⟨s, .listing s.listRecent, []⟩

/-- A request to one of the three JSON routes, with its body fields. -/
inductive Request where
  | requestAccess (phone package : Option String)
  | confirmPayment (code mpesa_ref : Option String)
  | transactions
deriving DecidableEq, Repr

/-- The server as a transition function: one request, served in environment `env`. -/
def handle (env : Env) (req : Request) (s : Store) : Outcome :=
  match req with
  | .requestAccess phone package => requestAccess env phone package s
  | .confirmPayment code ref => confirmPayment env code ref s
  | .transactions => listTransactions s

/-- The store after a sequence of requests, each with its own environment. -/
def run (s : Store) : List (Env × Request) → Store
  | [] => s
  | (env, req) :: rest => run (handle env req s).store rest

/-- Stores the server can be in, starting from a fresh database. -/
def Reachable (s : Store) : Prop := ∃ ops : List (Env × Request), run Store.empty ops = s

/-! ## Predicates and sample data used in the statements -/

/-- A character in `0-9` or `A-F`. -/
def isUpperHex (c : Char) : Prop := ('0' ≤ c ∧ c ≤ '9') ∨ ('A' ≤ c ∧ c ≤ 'F')

/-- A character in `0-9` or `a-f`. -/
def isLowerHex (c : Char) : Prop := ('0' ≤ c ∧ c ≤ '9') ∨ ('a' ≤ c ∧ c ≤ 'f')

instance : DecidablePred isUpperHex := fun _ => inferInstanceAs (Decidable (_ ∨ _))

instance : DecidablePred isLowerHex := fun _ => inferInstanceAs (Decidable (_ ∨ _))

/-- The request passes the guard of server.js 60. -/
def passesValidation (phone package : Option String) : Bool :=
  match phone, package with
  | some ph, some pk => truthy (some ph) && truthy (some pk) && (getPackage pk).truthy
  | _, _ => false

/-- A concrete request environment: clock 1700000000000, fixed random bytes. -/
def sampleEnv : Env :=
  { now := 1700000000000
    codeBytes := ⟨[0x1a, 0x2b, 0x3c, 0x4d], rfl⟩
    passBytes := ⟨[0xde, 0xad, 0x0f], rfl⟩
    localeString := fun ms => toString ms }

/-- A store holding one pending transaction whose expiry (1 hour after creation)
is long past at `lateEnv`. -/
def oneRequestStore : Store := (requestAccess sampleEnv (some "0711111111") (some "1h") Store.empty).store

/-- The row of `oneRequestStore`. -/
def oneRequestRow : Transaction :=
  ⟨1, "0711111111", "1h", 10, "1A2B3C4D", "user1700000000000", "dead0f", .pending,
    1700000000, 1700003600000⟩

/-- An environment one year later than `sampleEnv`. -/
def lateEnv : Env := { sampleEnv with now := 1731536000000 }

/-- The store of `oneRequestStore` after its transaction has been confirmed. -/
def paidStore : Store := (confirmPayment lateEnv (some "1A2B3C4D") none oneRequestStore).store

/-- A row as `markPaid c` leaves it. -/
def paidIf (c : String) (t : Transaction) : Transaction :=
  if t.code = c then { t with status := .paid } else t

/-- Two requests for access served with the same random bytes, then a confirmation. -/
def collidingOps : List (Env × Request) :=
  [ (sampleEnv, .requestAccess (some "0711111111") (some "1h")),
    (lateEnv, .requestAccess (some "0722222222") (some "1d")),
    (lateEnv, .confirmPayment (some "1A2B3C4D") (some "QGH7XK2")) ]

/-- Code `c` has been used up: some row carries it and every row carrying it is paid. -/
def Spent (c : String) (s : Store) : Prop :=
  c ∈ s.codes ∧ ∀ t ∈ s.rows, t.code = c → t.status = .paid

/-- A colliding request, a listing and another confirmation of the same code. -/
def laterOps : List (Env × Request) :=
  [ (lateEnv, .requestAccess (some "0722222222") (some "1d")),
    (sampleEnv, .transactions),
    (sampleEnv, .confirmPayment (some "1A2B3C4D") none) ]

instance : IsTotal Transaction newerOrEqual := ⟨fun a b => Nat.le_total b.created_at a.created_at⟩

instance : IsTrans Transaction newerOrEqual :=
  ⟨fun _ _ _ hab hbc => Nat.le_trans hbc hab⟩

/-- Two requests served within the same second, with different random bytes. -/
def sameSecondOps : List (Env × Request) :=
  [ (sampleEnv, .requestAccess (some "0711111111") (some "1h")),
    ({ sampleEnv with now := 1700000000500, codeBytes := ⟨[0x99, 0x88, 0x77, 0x66], rfl⟩ },
      .requestAccess (some "0722222222") (some "6h")) ]

/-- Two requests served two seconds apart, with different random bytes. -/
def distinctSecondOps : List (Env × Request) :=
  [ (sampleEnv, .requestAccess (some "0711111111") (some "1h")),
    ({ sampleEnv with now := 1700000002000, codeBytes := ⟨[0x99, 0x88, 0x77, 0x66], rfl⟩ },
      .requestAccess (some "0722222222") (some "6h")) ]

/-- The store after `distinctSecondOps`: two pending rows, codes `1A2B3C4D` and
`99887766`. -/
def twoPendingStore : Store := run Store.empty distinctSecondOps

/-- An environment whose code bytes give a code that `twoPendingStore` does not hold. -/
def freshEnv : Env :=
  { sampleEnv with now := 1700000005000, codeBytes := ⟨[0x0a, 0x0b, 0x0c, 0x0d], rfl⟩ }

/-- The environment `freshEnv` with another clock value and other password bytes. -/
def freshEnvLater : Env :=
  { freshEnv with now := 1700000009000, passBytes := ⟨[0x01, 0x02, 0x03], rfl⟩ }

/-- A replacement of credentials that keeps those of the row with code `1A2B3C4D`
and overwrites all others. -/
def keepFirst (t : Transaction) : String × String :=
  if t.code = "1A2B3C4D" then (t.username, t.password) else ("x", "y")

/-- The same row with other credentials if it is pending, itself otherwise. -/
def recredentialRow (f : Transaction → String × String) (t : Transaction) : Transaction :=
  if t.status = .pending then { t with username := (f t).1, password := (f t).2 } else t

/-- The same store with the username and password of every pending row replaced
(by `f`); used to state what an answer does not depend on. -/
def Store.recredential (f : Transaction → String × String) (s : Store) : Store :=
  { s with rows := s.rows.map (recredentialRow f) }

/-- The response and the SMS of a request-access call, computed from the body fields,
the code bytes and the codes in the table alone. -/
def requestView (codeBytes : RandomBytes 4) (phone package : Option String) (codes : List String) :
    Response × List SMS :=
  match phone, package with
  | some ph, some pk =>
    if passesValidation (some ph) (some pk) = true then
      if (getPackage pk).price = none ∨ generateCode codeBytes ∈ codes then
        (.failure 500 "Database error", [])
      else
        (.requested (generateCode codeBytes) "Payment instructions sent! Check console for SMS.",
          [⟨ph, paymentMessage (getPackage pk) (generateCode codeBytes)⟩])
    else (.failure 400 "Invalid request", [])
  | _, _ => (.failure 400 "Invalid request", [])

/-! ## Format of the generated tokens -/

theorem hexDigit_lower : ∀ n, n < 16 → isLowerHex (hexDigit n) := by decide

theorem hexDigit_upper : ∀ n, n < 16 → isUpperHex (hexDigit n).toUpper := by decide

theorem byteToHex_lower (b : Byte) : ∀ c ∈ byteToHex b, isLowerHex c := by
  intro c hc
  simp only [byteToHex, List.mem_cons, List.mem_singleton, List.not_mem_nil, or_false] at hc
  rcases hc with rfl | rfl
  · exact hexDigit_lower _ (by omega)
  · exact hexDigit_lower _ (by omega)

theorem byteToHex_upper (b : Byte) : ∀ c ∈ byteToHex b, isUpperHex c.toUpper := by
  intro c hc
  simp only [byteToHex, List.mem_cons, List.mem_singleton, List.not_mem_nil, or_false] at hc
  rcases hc with rfl | rfl
  · exact hexDigit_upper _ (by omega)
  · exact hexDigit_upper _ (by omega)

theorem length_flatMap_byteToHex (bs : List Byte) :
    (bs.flatMap byteToHex).length = 2 * bs.length := by
  induction bs with
  | nil => rfl
  | cons b bs ih =>
    rw [List.flatMap_cons, List.length_append, ih, List.length_cons]
    simp only [byteToHex, List.length_cons, List.length_nil]
    omega

theorem toHex_length (bs : List Byte) : (toHex bs).length = 2 * bs.length := by
  show (bs.flatMap byteToHex).length = 2 * bs.length
  exact length_flatMap_byteToHex bs

theorem toHex_lower (bs : List Byte) : ∀ c ∈ (toHex bs).data, isLowerHex c := by
  intro c hc
  simp only [toHex, List.mem_flatMap] at hc
  obtain ⟨b, _, hb⟩ := hc
  exact byteToHex_lower b c hb

theorem toUpperCase_toHex_upper (bs : List Byte) :
    ∀ c ∈ (toUpperCase (toHex bs)).data, isUpperHex c := by
  intro c hc
  simp only [toUpperCase, toHex, List.mem_map, List.mem_flatMap] at hc
  obtain ⟨d, ⟨b, _, hb⟩, rfl⟩ := hc
  exact byteToHex_upper b d hb

theorem toUpperCase_length (s : String) : (toUpperCase s).length = s.length := by
  show (s.data.map Char.toUpper).length = s.data.length
  exact List.length_map _ _

/-- C10. For every 4 random bytes `generateCode` returns exactly 8 characters, each
in `0-9` or `A-F`; for every 3 random bytes and every clock value
`generateCredentials` returns a username that is `user` followed by some text
and a password of exactly 6 characters, each a hexadecimal digit (`0-9`, `a-f`). -/
theorem generated_tokens_format (rb4 : RandomBytes 4) (rb3 : RandomBytes 3) (now : Nat) :
    (generateCode rb4).length = 8 ∧
    (∀ c ∈ (generateCode rb4).data, isUpperHex c) ∧
    (∃ rest : String, (generateCredentials now rb3).1 = "user" ++ rest) ∧
    (generateCredentials now rb3).2.length = 6 ∧
    (∀ c ∈ (generateCredentials now rb3).2.data, isLowerHex c) := by
  refine ⟨?_, ?_, ⟨toString now, rfl⟩, ?_, ?_⟩
  · rw [generateCode, toUpperCase_length, toHex_length, rb4.size]
  · exact toUpperCase_toHex_upper rb4.bytes
  · show (toHex rb3.bytes).length = 6
    rw [toHex_length, rb3.size]
  · exact toHex_lower rb3.bytes

/-! ## Request access -/

theorem getPackage_catalog :
    getPackage "1h" = .entry ⟨"1h", 10, "1 Hour"⟩ ∧ getPackage "6h" = .entry ⟨"6h", 20, "6 Hours"⟩ ∧
    getPackage "12h" = .entry ⟨"12h", 30, "12 Hours"⟩ ∧ getPackage "1d" = .entry ⟨"1d", 50, "1 Day"⟩ := by
  decide

theorem truthy_some (x : String) : truthy (some x) = true ↔ x ≠ "" := by
  simp [truthy]

theorem requestAccess_invalid (env : Env) (phone package : Option String) (s : Store)
    (h : passesValidation phone package = false) :
    requestAccess env phone package s = ⟨s, .failure 400 "Invalid request", []⟩ := by
  unfold requestAccess
  cases phone <;> cases package <;> simp_all [passesValidation]

theorem requestAccess_valid (env : Env) (phone package : String) (s : Store)
    (h : passesValidation (some phone) (some package) = true) :
    requestAccess env (some phone) (some package) s =
      match s.insert env.now phone package (getPackage package).price (generateCode env.codeBytes)
          (generateCredentials env.now env.passBytes).1 (generateCredentials env.now env.passBytes).2
          (expiryOf env.now package) with
      | none => ⟨s, .failure 500 "Database error", []⟩
      | some s' =>
        ⟨s', .requested (generateCode env.codeBytes) "Payment instructions sent! Check console for SMS.",
          [⟨phone, paymentMessage (getPackage package) (generateCode env.codeBytes)⟩]⟩ := by
  unfold requestAccess
  simp only [passesValidation, Bool.and_eq_true] at h
  simp [h.1.1, h.1.2, h.2]

theorem passesValidation_catalog (phone package : String) (hphone : phone ≠ "")
    (hpk : package ∈ ["1h", "6h", "12h", "1d"]) :
    passesValidation (some phone) (some package) = true := by
  simp only [List.mem_cons, List.mem_singleton, List.not_mem_nil, or_false] at hpk
  have hp : truthy (some phone) = true := (truthy_some phone).2 hphone
  rcases hpk with rfl | rfl | rfl | rfl <;>
    simp only [passesValidation, hp, Bool.true_and, Bool.and_eq_true] <;> exact ⟨by decide, by decide⟩

theorem getPackage_catalog_price (package : String) (hpk : package ∈ ["1h", "6h", "12h", "1d"]) :
    ∃ p : Package, getPackage package = .entry p ∧
      (package = "1h" → p.price = 10) ∧ (package = "6h" → p.price = 20) ∧
      (package = "12h" → p.price = 30) ∧ (package = "1d" → p.price = 50) := by
  simp only [List.mem_cons, List.mem_singleton, List.not_mem_nil, or_false] at hpk
  rcases hpk with rfl | rfl | rfl | rfl
  · exact ⟨_, getPackage_catalog.1, by decide⟩
  · exact ⟨_, getPackage_catalog.2.1, by decide⟩
  · exact ⟨_, getPackage_catalog.2.2.1, by decide⟩
  · exact ⟨_, getPackage_catalog.2.2.2, by decide⟩

theorem insert_fresh (s : Store) (now : Nat) (phone package : String) (a : Nat)
    (code username password : String) (expiresAt : Nat) (hfresh : code ∉ s.codes) :
    s.insert now phone package (some a) code username password expiresAt =
      some { rows := s.rows ++ [s.newRow now phone package a code username password expiresAt],
             seq := s.nextId } := by
  simp only [Store.insert, hfresh, if_false]

theorem insert_collision (s : Store) (now : Nat) (phone package : String) (a : Option Nat)
    (code username password : String) (expiresAt : Nat) (hcode : code ∈ s.codes) :
    s.insert now phone package a code username password expiresAt = none := by
  cases a <;> simp [Store.insert, hcode]

/-- C1. For every store, every non-empty phone, every package id among `1h`, `6h`,
`12h`, `1d` and every generated code not already in the store, the request-access
handler answers with success and that code, and the table afterwards is the old
table followed by exactly one new row: its phone and package are the ones given,
its code is the generated one, its status is pending and its amount is the
catalog price (10, 20, 30, 50). -/
theorem requestAccess_creates_pending (env : Env) (s : Store) (phone package : String)
    (hphone : phone ≠ "") (hpk : package ∈ ["1h", "6h", "12h", "1d"])
    (hfresh : generateCode env.codeBytes ∉ s.codes) :
    ∃ t : Transaction,
      (requestAccess env (some phone) (some package) s).response =
        .requested (generateCode env.codeBytes) "Payment instructions sent! Check console for SMS." ∧
      (requestAccess env (some phone) (some package) s).store.rows = s.rows ++ [t] ∧
      t.phone = phone ∧ t.package = package ∧ t.code = generateCode env.codeBytes ∧
      t.status = .pending ∧
      (package = "1h" → t.amount = 10) ∧ (package = "6h" → t.amount = 20) ∧
      (package = "12h" → t.amount = 30) ∧ (package = "1d" → t.amount = 50) := by
  rw [requestAccess_valid env phone package s (passesValidation_catalog phone package hphone hpk)]
  obtain ⟨p, hp, hprice⟩ := getPackage_catalog_price package hpk
  rw [hp, Lookup.price, insert_fresh s _ _ _ _ _ _ _ _ hfresh]
  exact ⟨_, rfl, rfl, rfl, rfl, rfl, rfl, hprice⟩

theorem requestAccess_creates_pending_witness :
    ∃ t : Transaction,
      (requestAccess sampleEnv (some "0711111111") (some "1h") Store.empty).response =
        .requested (generateCode sampleEnv.codeBytes)
          "Payment instructions sent! Check console for SMS." ∧
      (requestAccess sampleEnv (some "0711111111") (some "1h") Store.empty).store.rows =
        Store.empty.rows ++ [t] ∧
      t.phone = "0711111111" ∧ t.package = "1h" ∧ t.code = generateCode sampleEnv.codeBytes ∧
      t.status = .pending ∧
      ("1h" = "1h" → t.amount = 10) ∧ ("1h" = "6h" → t.amount = 20) ∧
      ("1h" = "12h" → t.amount = 30) ∧ ("1h" = "1d" → t.amount = 50) :=
  requestAccess_creates_pending sampleEnv Store.empty "0711111111" "1h" (by decide) (by decide)
    (by simp [Store.codes, Store.empty])

/-- C4, evaluated at a request the guard of server.js 60 lets through: the package
id `constructor` is none of the four catalog ids, yet `PACKAGES['constructor']`
is the inherited `Object` function, so the handler goes on to the `INSERT`,
whose `NOT NULL` constraint on `amount` fails, and answers 500 `Database error`
instead of 400 `Invalid request` (the store is unchanged, no SMS is sent). -/
theorem requestAccess_inherited_key (env : Env) (s : Store) :
    "constructor" ∉ ["1h", "6h", "12h", "1d"] ∧
    requestAccess env (some "0711111111") (some "constructor") s =
      ⟨s, .failure 500 "Database error", []⟩ ∧
    (requestAccess env (some "0711111111") (some "constructor") s).response ≠
      .failure 400 "Invalid request" := by
  have h : requestAccess env (some "0711111111") (some "constructor") s =
      ⟨s, .failure 500 "Database error", []⟩ := by
    rw [requestAccess_valid env _ _ s (by decide)]
    have hp : getPackage "constructor" = .inherited := by decide
    rw [hp]
    rfl
  refine ⟨by decide, h, ?_⟩
  rw [h]
  show Response.failure 500 "Database error" ≠ Response.failure 400 "Invalid request"
  decide

/-- What does hold of the guard: an absent or empty phone, an absent or empty
package, or a package id that is neither a catalog id nor a member of
`Object.prototype`, is answered 400 with nothing stored and nothing sent. -/
theorem requestAccess_rejects (env : Env) (s : Store) (phone package : Option String)
    (h : truthy phone = false ∨ truthy package = false ∨
      ∃ pk, package = some pk ∧ getPackage pk = .undefined) :
    requestAccess env phone package s = ⟨s, .failure 400 "Invalid request", []⟩ := by
  apply requestAccess_invalid
  cases phone <;> cases package <;> simp only [passesValidation]
  rename_i ph pk
  rcases h with h | h | ⟨pk2, h1, h2⟩
  · simp [h]
  · simp [h]
  · cases h1
    simp [h2, Lookup.truthy]

/-! ## Confirm payment -/

theorem confirmPayment_none (env : Env) (code ref : Option String) (s : Store)
    (h : s.findPending code = none) :
    confirmPayment env code ref s = ⟨s, .failure 400 "Invalid code or already used", []⟩ := by
  unfold confirmPayment
  rw [h]

theorem confirmPayment_some (env : Env) (c : String) (ref : Option String) (s : Store)
    (row : Transaction) (h : s.findPending (some c) = some row) :
    confirmPayment env (some c) ref s =
      ⟨s.markPaid c, .confirmed row.username row.password "Check console for login details!",
        [⟨row.phone, loginMessage env row⟩]⟩ := by
  unfold confirmPayment
  rw [h]

theorem findPending_some (s : Store) (code : Option String) (row : Transaction)
    (h : s.findPending code = some row) :
    code = some row.code ∧ row ∈ s.rows ∧ row.status = .pending := by
  cases code with
  | none => simp [Store.findPending] at h
  | some c =>
    simp only [Store.findPending] at h
    have h1 := List.find?_some h
    have h2 := List.mem_of_find?_eq_some h
    simp only [Bool.and_eq_true, decide_eq_true_eq] at h1
    exact ⟨by rw [h1.1], h2, h1.2⟩

theorem findPending_eq_none (s : Store) (c : String)
    (h : ∀ t ∈ s.rows, t.code = c → t.status = .paid) : s.findPending (some c) = none := by
  simp only [Store.findPending, List.find?_eq_none, Bool.and_eq_true, decide_eq_true_eq, not_and]
  intro t ht hc hs
  have := h t ht hc
  rw [hs] at this
  cases this

theorem find_pending_unique (rows : List Transaction) (t : Transaction)
    (hnodup : (rows.map (fun r => r.code)).Nodup) (ht : t ∈ rows) (hst : t.status = .pending) :
    rows.find? (fun r => decide (r.code = t.code) && decide (r.status = .pending)) = some t := by
  induction rows with
  | nil => cases ht
  | cons r rest ih =>
    simp only [List.map_cons, List.nodup_cons, List.mem_map, not_exists, not_and] at hnodup
    rcases List.mem_cons.1 ht with rfl | hmem
    · simp [List.find?_cons, hst]
    · have hne : r.code ≠ t.code := fun h => hnodup.1 t hmem h.symm
      simp only [List.find?_cons, hne, decide_False, Bool.false_and]
      exact ih hnodup.2 hmem

theorem findPending_unique (s : Store) (t : Transaction) (hnodup : s.codes.Nodup)
    (ht : t ∈ s.rows) (hst : t.status = .pending) : s.findPending (some t.code) = some t :=
  find_pending_unique s.rows t hnodup ht hst

theorem markPaid_codes (s : Store) (c : String) : (s.markPaid c).codes = s.codes := by
  simp only [Store.codes, Store.markPaid, List.map_map]
  apply List.map_congr_left
  intro t _
  simp only [Function.comp]
  split <;> rfl

theorem eq_of_code_eq (s : Store) (hunique : s.codes.Nodup) (a b : Transaction)
    (ha : a ∈ s.rows) (hb : b ∈ s.rows) (h : a.code = b.code) : a = b :=
  List.inj_on_of_nodup_map hunique ha hb h

theorem markPaid_rows_paid (s : Store) (c : String) :
    ∀ r ∈ (s.markPaid c).rows, r.code = c → r.status = .paid := by
  intro r hr hc
  simp only [Store.markPaid, List.mem_map] at hr
  obtain ⟨t, _, rfl⟩ := hr
  by_cases h : t.code = c
  · simp [h]
  · simp only [h, if_false] at hc

/-- C2. In every store with unique codes that holds a pending transaction `t`,
confirming the code of `t` succeeds for every payment reference and in every
environment (so at every clock value, before or after `t.expires_at`): the
response carries exactly the username and password stored in `t`, the login SMS
goes to the stored phone, and afterwards `t` is in the table with status paid
(all its other columns unchanged) and no row with that code is pending. -/
theorem confirm_returns_stored_credentials (s : Store) (t : Transaction)
    (hunique : s.codes.Nodup) (ht : t ∈ s.rows) (hpending : t.status = .pending)
    (env : Env) (ref : Option String) :
    (confirmPayment env (some t.code) ref s).response =
      .confirmed t.username t.password "Check console for login details!" ∧
    (confirmPayment env (some t.code) ref s).sms = [⟨t.phone, loginMessage env t⟩] ∧
    { t with status := .paid } ∈ (confirmPayment env (some t.code) ref s).store.rows ∧
    ∀ r ∈ (confirmPayment env (some t.code) ref s).store.rows, r.code = t.code → r.status = .paid := by
  rw [confirmPayment_some env t.code ref s t (findPending_unique s t hunique ht hpending)]
  refine ⟨rfl, rfl, ?_, markPaid_rows_paid s t.code⟩
  simp only [Store.markPaid, List.mem_map]
  exact ⟨t, ht, by simp⟩

theorem oneRequestStore_rows : oneRequestStore.rows = [oneRequestRow] := by decide

theorem confirm_returns_stored_credentials_witness :
    oneRequestRow.expires_at < lateEnv.now ∧
    (confirmPayment lateEnv (some oneRequestRow.code) (some "QGH7XK2") oneRequestStore).response =
      .confirmed oneRequestRow.username oneRequestRow.password "Check console for login details!" ∧
    (confirmPayment lateEnv (some oneRequestRow.code) (some "QGH7XK2") oneRequestStore).sms =
      [⟨oneRequestRow.phone, loginMessage lateEnv oneRequestRow⟩] ∧
    { oneRequestRow with status := .paid } ∈
      (confirmPayment lateEnv (some oneRequestRow.code) (some "QGH7XK2") oneRequestStore).store.rows ∧
    ∀ r ∈ (confirmPayment lateEnv (some oneRequestRow.code) (some "QGH7XK2") oneRequestStore).store.rows,
      r.code = oneRequestRow.code → r.status = .paid :=
  ⟨by decide, confirm_returns_stored_credentials oneRequestStore oneRequestRow (by decide)
    (by decide) (by decide) lateEnv (some "QGH7XK2")⟩

/-- Request then confirm, end to end: after a request that passes validation with a
fresh code, confirming that code (any reference, any environment) returns the
username and password `generateCredentials` produced for the request. -/
theorem request_then_confirm (env env2 : Env) (s : Store) (phone package : String)
    (ref : Option String) (a : Nat)
    (hvalid : passesValidation (some phone) (some package) = true)
    (hprice : (getPackage package).price = some a)
    (hfresh : generateCode env.codeBytes ∉ s.codes) :
    (confirmPayment env2 (some (generateCode env.codeBytes)) ref
        (requestAccess env (some phone) (some package) s).store).response =
      .confirmed (generateCredentials env.now env.passBytes).1
        (generateCredentials env.now env.passBytes).2 "Check console for login details!" := by
  rw [requestAccess_valid env phone package s hvalid, hprice, insert_fresh s _ _ _ _ _ _ _ _ hfresh]
  have hfind : Store.findPending
      { rows := s.rows ++ [s.newRow env.now phone package a (generateCode env.codeBytes)
          (generateCredentials env.now env.passBytes).1 (generateCredentials env.now env.passBytes).2
          (expiryOf env.now package)],
        seq := s.nextId } (some (generateCode env.codeBytes)) =
      some (s.newRow env.now phone package a (generateCode env.codeBytes)
          (generateCredentials env.now env.passBytes).1 (generateCredentials env.now env.passBytes).2
          (expiryOf env.now package)) := by
    simp only [Store.findPending, List.find?_append]
    have hnone : s.rows.find? (fun t => decide (t.code = generateCode env.codeBytes) &&
        decide (t.status = .pending)) = none := by
      simp only [List.find?_eq_none, Bool.and_eq_true, decide_eq_true_eq, not_and]
      intro t ht hc
      exact absurd (List.mem_map.2 ⟨t, ht, hc⟩) hfresh
    rw [hnone]
    simp [List.find?_cons, Store.newRow]
  show (confirmPayment env2 (some (generateCode env.codeBytes)) ref
      { rows := s.rows ++ [s.newRow env.now phone package a (generateCode env.codeBytes)
          (generateCredentials env.now env.passBytes).1 (generateCredentials env.now env.passBytes).2
          (expiryOf env.now package)],
        seq := s.nextId }).response = _
  rw [confirmPayment_some env2 _ ref _ _ hfind]
  rfl

/-- C5. In every store with unique codes, for every code `c1` that no row carries
and every code `c2` of a row that is already paid, confirming `c1` and confirming
`c2` (any references, any environments) both answer 400 `Invalid code or already
used`, both leave the store unchanged and send no SMS; the two responses are equal. -/
theorem failed_confirmations_indistinguishable (s : Store) (hunique : s.codes.Nodup)
    (c1 : String) (h1 : c1 ∉ s.codes) (t2 : Transaction) (ht2 : t2 ∈ s.rows)
    (hpaid : t2.status = .paid) (env1 env2 : Env) (ref1 ref2 : Option String) :
    confirmPayment env1 (some c1) ref1 s = ⟨s, .failure 400 "Invalid code or already used", []⟩ ∧
    confirmPayment env2 (some t2.code) ref2 s =
      ⟨s, .failure 400 "Invalid code or already used", []⟩ ∧
    (confirmPayment env1 (some c1) ref1 s).response =
      (confirmPayment env2 (some t2.code) ref2 s).response := by
  have e1 : confirmPayment env1 (some c1) ref1 s =
      ⟨s, .failure 400 "Invalid code or already used", []⟩ := by
    apply confirmPayment_none
    apply findPending_eq_none
    intro t ht hc
    exact absurd (List.mem_map.2 ⟨t, ht, hc⟩) h1
  have e2 : confirmPayment env2 (some t2.code) ref2 s =
      ⟨s, .failure 400 "Invalid code or already used", []⟩ := by
    apply confirmPayment_none
    apply findPending_eq_none
    intro t ht hc
    rw [eq_of_code_eq s hunique t t2 ht ht2 hc]
    exact hpaid
  exact ⟨e1, e2, by rw [e1, e2]⟩

theorem paidStore_rows : paidStore.rows = [{ oneRequestRow with status := .paid }] := by decide

theorem failed_confirmations_indistinguishable_witness :
    confirmPayment sampleEnv (some "FFFFFFFF") none paidStore =
      ⟨paidStore, .failure 400 "Invalid code or already used", []⟩ ∧
    confirmPayment lateEnv (some ({ oneRequestRow with status := .paid } : Transaction).code)
        (some "QGH7XK2") paidStore =
      ⟨paidStore, .failure 400 "Invalid code or already used", []⟩ ∧
    (confirmPayment sampleEnv (some "FFFFFFFF") none paidStore).response =
      (confirmPayment lateEnv (some ({ oneRequestRow with status := .paid } : Transaction).code)
        (some "QGH7XK2") paidStore).response :=
  failed_confirmations_indistinguishable paidStore (by decide) "FFFFFFFF" (by decide)
    { oneRequestRow with status := .paid } (by decide) rfl sampleEnv lateEnv none (some "QGH7XK2")

/-! ## The shape of one step -/

theorem insert_some (s s2 : Store) (now : Nat) (phone package : String) (amount : Option Nat)
    (code username password : String) (expiresAt : Nat)
    (h : s.insert now phone package amount code username password expiresAt = some s2) :
    ∃ a, amount = some a ∧ code ∉ s.codes ∧
      s2 = { rows := s.rows ++ [s.newRow now phone package a code username password expiresAt],
             seq := s.nextId } := by
  cases amount with
  | none => simp [Store.insert] at h
  | some a =>
    by_cases hc : code ∈ s.codes
    · simp [Store.insert, hc] at h
    · rw [insert_fresh s now phone package a code username password expiresAt hc] at h
      exact ⟨a, rfl, hc, (Option.some.inj h).symm⟩

/-- What a request-access call does to the store: nothing, or one appended pending
row with a code the table did not hold. -/
theorem requestAccess_store (env : Env) (phone package : Option String) (s : Store) :
    (requestAccess env phone package s).store = s ∨
    ∃ t : Transaction, (requestAccess env phone package s).store.rows = s.rows ++ [t] ∧
      t.code ∉ s.codes ∧ t.status = .pending := by
  by_cases hv : passesValidation phone package = true
  · cases phone with
    | none => simp [passesValidation] at hv
    | some ph =>
      cases package with
      | none => simp [passesValidation] at hv
      | some pk =>
        rw [requestAccess_valid env ph pk s hv]
        cases hins : s.insert env.now ph pk (getPackage pk).price (generateCode env.codeBytes)
            (generateCredentials env.now env.passBytes).1
            (generateCredentials env.now env.passBytes).2 (expiryOf env.now pk) with
        | none => exact Or.inl rfl
        | some s2 =>
          obtain ⟨a, _, hfresh, rfl⟩ := insert_some _ _ _ _ _ _ _ _ _ _ hins
          exact Or.inr ⟨_, rfl, hfresh, rfl⟩
  · rw [requestAccess_invalid env phone package s (by simpa using hv)]
    exact Or.inl rfl

/-- What a confirm-payment call does to the store: nothing, or `markPaid` on the
code of a row that was pending. -/
theorem confirmPayment_store (env : Env) (code ref : Option String) (s : Store) :
    (confirmPayment env code ref s).store = s ∨
    ∃ c, code = some c ∧ (confirmPayment env code ref s).store = s.markPaid c ∧
      ∃ row ∈ s.rows, row.code = c ∧ row.status = .pending := by
  cases hf : s.findPending code with
  | none =>
    rw [confirmPayment_none env code ref s hf]
    exact Or.inl rfl
  | some row =>
    obtain ⟨hcode, hmem, hst⟩ := findPending_some s code row hf
    subst hcode
    rw [confirmPayment_some env row.code ref s row hf]
    exact Or.inr ⟨row.code, rfl, rfl, row, hmem, rfl, hst⟩

theorem markPaid_rows (s : Store) (c : String) : (s.markPaid c).rows = s.rows.map (paidIf c) := rfl

theorem paidIf_of_paid (c : String) (t : Transaction) (h : t.status = .paid) : paidIf c t = t := by
  unfold paidIf
  split
  · cases t
    simp_all
  · rfl

/-- The three things a request can do to the store. -/
theorem handle_store (env : Env) (req : Request) (s : Store) :
    (handle env req s).store = s ∨
    (∃ t : Transaction, (∃ phone package, req = .requestAccess phone package) ∧
      (handle env req s).store.rows = s.rows ++ [t] ∧ t.code ∉ s.codes ∧ t.status = .pending) ∨
    (∃ c ref, req = .confirmPayment (some c) ref ∧ (handle env req s).store = s.markPaid c ∧
      ∃ row ∈ s.rows, row.code = c ∧ row.status = .pending) := by
  cases req with
  | requestAccess phone package =>
    rcases requestAccess_store env phone package s with h | ⟨t, h1, h2, h3⟩
    · exact Or.inl h
    · exact Or.inr (Or.inl ⟨t, ⟨phone, package, rfl⟩, h1, h2, h3⟩)
  | confirmPayment code ref =>
    rcases confirmPayment_store env code ref s with h | ⟨c, rfl, h1, h2⟩
    · exact Or.inl h
    · exact Or.inr (Or.inr ⟨c, ref, rfl, h1, h2⟩)
  | transactions => exact Or.inl rfl

theorem getElem?_append_singleton (rows : List Transaction) (t x : Transaction) (i : Nat)
    (h : rows[i]? = some x) : (rows ++ [t])[i]? = some x := by
  have hi : i < rows.length := by
    by_contra hge
    rw [List.getElem?_eq_none (by omega)] at h
    cases h
  rw [List.getElem?_append_left hi]
  exact h

theorem paidIf_cases (c : String) (t : Transaction) :
    paidIf c t = t ∨ (t.code = c ∧ paidIf c t = { t with status := .paid }) := by
  unfold paidIf
  by_cases h : t.code = c
  · exact Or.inr ⟨h, by simp [h]⟩
  · exact Or.inl (by simp [h])

/-- C9. For every store, every request (request-access, confirm-payment, listing)
and every row `t` of the table, the row at the same position afterwards has the
same id, phone, package, amount, code, username, password, created_at and
expires_at; it is `t` itself unless the request is a confirm-payment for the
code of `t`, in which case it is `t` with status paid.  So no row is deleted,
nothing but `status` is ever changed, a confirmation touches only rows with its
code and a request-access or listing touches no existing row. -/
theorem existing_rows_preserved (env : Env) (req : Request) (s : Store) (i : Nat)
    (t : Transaction) (h : s.rows[i]? = some t) :
    ∃ t2 : Transaction, (handle env req s).store.rows[i]? = some t2 ∧
      t2.id = t.id ∧ t2.phone = t.phone ∧ t2.package = t.package ∧ t2.amount = t.amount ∧
      t2.code = t.code ∧ t2.username = t.username ∧ t2.password = t.password ∧
      t2.created_at = t.created_at ∧ t2.expires_at = t.expires_at ∧
      (t2 = t ∨ ((∃ ref, req = .confirmPayment (some t.code) ref) ∧
        t2 = { t with status := .paid })) := by
  rcases handle_store env req s with h1 | ⟨n, _, h1, _, _⟩ | ⟨c, ref, hreq, h1, _⟩
  · rw [h1]
    exact ⟨t, h, rfl, rfl, rfl, rfl, rfl, rfl, rfl, rfl, rfl, Or.inl rfl⟩
  · rw [h1]
    exact ⟨t, getElem?_append_singleton s.rows n t i h, rfl, rfl, rfl, rfl, rfl, rfl, rfl, rfl, rfl,
      Or.inl rfl⟩
  · rw [h1, markPaid_rows, List.getElem?_map, h, Option.map_some']
    rcases paidIf_cases c t with h2 | ⟨hc, h2⟩
    · rw [h2]
      exact ⟨t, rfl, rfl, rfl, rfl, rfl, rfl, rfl, rfl, rfl, rfl, Or.inl rfl⟩
    · rw [h2]
      subst hc
      exact ⟨_, rfl, rfl, rfl, rfl, rfl, rfl, rfl, rfl, rfl, rfl, Or.inr ⟨⟨ref, hreq⟩, rfl⟩⟩

theorem existing_rows_preserved_witness :
    ∃ t2 : Transaction,
      (handle lateEnv (.confirmPayment (some "1A2B3C4D") none) oneRequestStore).store.rows[0]? =
        some t2 ∧
      t2.id = oneRequestRow.id ∧ t2.phone = oneRequestRow.phone ∧
      t2.package = oneRequestRow.package ∧ t2.amount = oneRequestRow.amount ∧
      t2.code = oneRequestRow.code ∧ t2.username = oneRequestRow.username ∧
      t2.password = oneRequestRow.password ∧
      t2.created_at = oneRequestRow.created_at ∧ t2.expires_at = oneRequestRow.expires_at ∧
      (t2 = oneRequestRow ∨
        ((∃ ref, Request.confirmPayment (some "1A2B3C4D") none =
            .confirmPayment (some oneRequestRow.code) ref) ∧
          t2 = { oneRequestRow with status := .paid })) :=
  existing_rows_preserved lateEnv (.confirmPayment (some "1A2B3C4D") none) oneRequestStore 0
    oneRequestRow (by decide)

/-! ## Invariants along runs -/

theorem handle_codes (env : Env) (req : Request) (s : Store) :
    (handle env req s).store.codes = s.codes ∨
    ∃ c, c ∉ s.codes ∧ (handle env req s).store.codes = s.codes ++ [c] := by
  rcases handle_store env req s with h1 | ⟨n, _, h1, h2, _⟩ | ⟨c, ref, _, h1, _⟩
  · rw [h1]
    exact Or.inl rfl
  · refine Or.inr ⟨n.code, h2, ?_⟩
    simp only [Store.codes, h1, List.map_append, List.map_cons, List.map_nil]
  · rw [h1]
    exact Or.inl (markPaid_codes s c)

theorem handle_codes_nodup (env : Env) (req : Request) (s : Store) (h : s.codes.Nodup) :
    (handle env req s).store.codes.Nodup := by
  rcases handle_codes env req s with h1 | ⟨c, hc, h1⟩
  · rw [h1]
    exact h
  · rw [h1]
    refine List.Nodup.append h (List.nodup_singleton c) ?_
    intro x hx hx2
    rw [List.mem_singleton] at hx2
    subst hx2
    exact hc hx

theorem run_codes_nodup (ops : List (Env × Request)) :
    ∀ s : Store, s.codes.Nodup → (run s ops).codes.Nodup := by
  induction ops with
  | nil => intro s h; exact h
  | cons op rest ih =>
    intro s h
    exact ih _ (handle_codes_nodup op.1 op.2 s h)

/-- C6. In every store reachable from the empty one by any sequence of requests
(each with arbitrary generated bytes) no two rows have the same code; and in
every store, a request-access that passes validation and whose generated code is
the code of an existing row (pending or paid) answers 500 `Database error`,
leaves the store as it was and sends no SMS. -/
theorem codes_unique :
    (∀ s : Store, Reachable s → s.codes.Nodup) ∧
    (∀ (s : Store) (env : Env) (phone package : String),
      passesValidation (some phone) (some package) = true →
      generateCode env.codeBytes ∈ s.codes →
      requestAccess env (some phone) (some package) s =
        ⟨s, .failure 500 "Database error", []⟩) := by
  constructor
  · rintro s ⟨ops, rfl⟩
    exact run_codes_nodup ops Store.empty List.nodup_nil
  · intro s env phone package hv hc
    rw [requestAccess_valid env phone package s hv, insert_collision s _ _ _ _ _ _ _ _ hc]

theorem codes_unique_witness :
    (run Store.empty collidingOps).codes.Nodup ∧
    requestAccess lateEnv (some "0722222222") (some "1d") paidStore =
      ⟨paidStore, .failure 500 "Database error", []⟩ :=
  ⟨codes_unique.1 (run Store.empty collidingOps) ⟨collidingOps, rfl⟩,
   codes_unique.2 paidStore lateEnv "0722222222" "1d" (by decide) (by decide)⟩

theorem spent_handle (c : String) (env : Env) (req : Request) (s : Store) (h : Spent c s) :
    Spent c (handle env req s).store := by
  rcases handle_store env req s with h1 | ⟨n, _, h1, h2, _⟩ | ⟨c2, ref, _, h1, _⟩
  · rw [h1]
    exact h
  · constructor
    · simp only [Store.codes, h1, List.map_append, List.mem_append]
      exact Or.inl h.1
    · intro t ht hc
      rw [h1, List.mem_append, List.mem_singleton] at ht
      rcases ht with ht | rfl
      · exact h.2 t ht hc
      · exact absurd (hc ▸ h.1) h2
  · rw [h1]
    constructor
    · rw [markPaid_codes]
      exact h.1
    · intro t ht hc
      rw [markPaid_rows, List.mem_map] at ht
      obtain ⟨r, hr, rfl⟩ := ht
      rcases paidIf_cases c2 r with h3 | ⟨_, h3⟩
      · rw [h3] at hc ⊢
        exact h.2 r hr hc
      · rw [h3]

theorem spent_run (c : String) (ops : List (Env × Request)) :
    ∀ s : Store, Spent c s → Spent c (run s ops) := by
  induction ops with
  | nil => intro s h; exact h
  | cons op rest ih =>
    intro s h
    exact ih _ (spent_handle c op.1 op.2 s h)

theorem spent_of_confirmed (env : Env) (c : String) (ref : Option String) (s : Store)
    (u p m : String) (h : (confirmPayment env (some c) ref s).response = .confirmed u p m) :
    Spent c (confirmPayment env (some c) ref s).store := by
  cases hf : s.findPending (some c) with
  | none =>
    rw [confirmPayment_none env (some c) ref s hf] at h
    cases h
  | some row =>
    obtain ⟨hcode, hmem, _⟩ := findPending_some s (some c) row hf
    rw [confirmPayment_some env c ref s row hf]
    refine ⟨?_, markPaid_rows_paid s c⟩
    show c ∈ (s.markPaid c).codes
    rw [markPaid_codes]
    exact List.mem_map.2 ⟨row, hmem, (Option.some.inj hcode).symm⟩

theorem paid_row_frozen_step (env : Env) (req : Request) (s : Store) (i : Nat) (t : Transaction)
    (h : s.rows[i]? = some t) (hpaid : t.status = .paid) :
    (handle env req s).store.rows[i]? = some t := by
  rcases handle_store env req s with h1 | ⟨n, _, h1, _, _⟩ | ⟨c, ref, _, h1, _⟩
  · rw [h1]
    exact h
  · rw [h1]
    exact getElem?_append_singleton s.rows n t i h
  · rw [h1, markPaid_rows, List.getElem?_map, h, Option.map_some', paidIf_of_paid c t hpaid]

theorem paid_row_frozen_run (ops : List (Env × Request)) :
    ∀ (s : Store) (i : Nat) (t : Transaction), s.rows[i]? = some t → t.status = .paid →
      (run s ops).rows[i]? = some t := by
  induction ops with
  | nil => intro s i t h _; exact h
  | cons op rest ih =>
    intro s i t h hpaid
    exact ih _ i t (paid_row_frozen_step op.1 op.2 s i t h hpaid) hpaid

/-- C3. Once a confirm-payment for code `c` has succeeded, then after any sequence
of further requests (request-access, confirm-payment, listing, each in any
environment) every confirm-payment for `c` answers 400 `Invalid code or already
used`, changes nothing and sends nothing; and along any sequence of requests a
row that is paid stays exactly as it is, so a status only ever goes from
pending to paid, once, and never back. -/
theorem confirmed_at_most_once :
    (∀ (s : Store) (env : Env) (c : String) (ref : Option String) (u p m : String),
      (confirmPayment env (some c) ref s).response = .confirmed u p m →
      ∀ (ops : List (Env × Request)) (env2 : Env) (ref2 : Option String),
        confirmPayment env2 (some c) ref2 (run (confirmPayment env (some c) ref s).store ops) =
          ⟨run (confirmPayment env (some c) ref s).store ops,
            .failure 400 "Invalid code or already used", []⟩) ∧
    (∀ (s0 : Store) (ops0 : List (Env × Request)) (i : Nat) (t : Transaction),
      s0.rows[i]? = some t → t.status = .paid → (run s0 ops0).rows[i]? = some t) := by
  constructor
  · intro s env c ref u p m hok ops env2 ref2
    apply confirmPayment_none
    apply findPending_eq_none
    exact (spent_run c ops _ (spent_of_confirmed env c ref s u p m hok)).2
  · intro s0 ops0 i t h hpaid
    exact paid_row_frozen_run ops0 s0 i t h hpaid

theorem confirmed_at_most_once_witness :
    confirmPayment sampleEnv (some "1A2B3C4D") (some "QGH7XK2")
        (run (confirmPayment lateEnv (some "1A2B3C4D") none oneRequestStore).store laterOps) =
      ⟨run (confirmPayment lateEnv (some "1A2B3C4D") none oneRequestStore).store laterOps,
        .failure 400 "Invalid code or already used", []⟩ ∧
    (run paidStore laterOps).rows[0]? = some { oneRequestRow with status := .paid } :=
  ⟨confirmed_at_most_once.1 oneRequestStore lateEnv "1A2B3C4D" none "user1700000000000" "dead0f"
      "Check console for login details!" (by decide) laterOps sampleEnv (some "QGH7XK2"),
   confirmed_at_most_once.2 paidStore laterOps 0 { oneRequestRow with status := .paid }
      (by decide) rfl⟩

/-! ## Listing -/

theorem listRecent_length (s : Store) : s.listRecent.length = min 100 s.rows.length := by
  simp [Store.listRecent, List.length_take, List.length_insertionSort]

theorem listRecent_append_drop (s : Store) :
    s.listRecent ++ (s.rows.insertionSort newerOrEqual).drop 100 = s.rows.insertionSort newerOrEqual :=
  List.take_append_drop 100 _

/-- C8, refuted as stated: after two requests served in the same second the table
holds two rows with equal `created_at`, and the listing returns both, so its
rows are not in strictly descending order of creation time. -/
theorem listing_not_strictly_descending :
    ∃ rows, (handle sampleEnv .transactions (run Store.empty sameSecondOps)).response = .listing rows ∧
      rows.length = 2 ∧
      ¬ rows.Pairwise (fun a b => b.created_at < a.created_at) :=
  ⟨(run Store.empty sameSecondOps).listRecent, rfl, by decide, by decide⟩

theorem listRecent_pairwise (s : Store) :
    s.listRecent.Pairwise (fun a b => b.created_at ≤ a.created_at) := by
  have h := List.sorted_insertionSort newerOrEqual s.rows
  rw [← listRecent_append_drop, List.Sorted, List.pairwise_append] at h
  exact h.1

theorem listRecent_created_nodup (s : Store)
    (h : (s.rows.map (fun t => t.created_at)).Nodup) :
    s.listRecent.Pairwise (fun a b => a.created_at ≠ b.created_at) := by
  have hperm := (List.perm_insertionSort newerOrEqual s.rows).map (fun t => t.created_at)
  have hsorted : ((s.rows.insertionSort newerOrEqual).map (fun t => t.created_at)).Nodup :=
    hperm.nodup_iff.2 h
  have hpw : (s.rows.insertionSort newerOrEqual).Pairwise
      (fun a b => a.created_at ≠ b.created_at) := List.pairwise_map.1 hsorted
  exact hpw.sublist (List.take_sublist 100 _)

/-- C8, amended. For every store with `n` rows, the listing leaves the store
unchanged, sends nothing, and returns `min 100 n` rows which, together with some
left-out rows, are a rearrangement of the table; the returned rows are in
descending order of `created_at` in the weak sense (each row is created no
earlier than the rows after it; rows with equal `created_at` may be adjacent),
and strictly descending when no two rows of the table share `created_at`; every
left-out row was created no later than every returned row. -/
theorem listing_bounded_newest_first (s : Store) :
    (listTransactions s).store = s ∧ (listTransactions s).sms = [] ∧
    ∃ rows rest : List Transaction,
      (listTransactions s).response = .listing rows ∧
      rows.length = min 100 s.rows.length ∧
      List.Perm (rows ++ rest) s.rows ∧
      rows.Pairwise (fun a b => b.created_at ≤ a.created_at) ∧
      (∀ x ∈ rows, ∀ r ∈ rest, r.created_at ≤ x.created_at) ∧
      ((s.rows.map (fun t => t.created_at)).Nodup →
        rows.Pairwise (fun a b => b.created_at < a.created_at)) := by
  refine ⟨rfl, rfl, s.listRecent, (s.rows.insertionSort newerOrEqual).drop 100, rfl,
    listRecent_length s, ?_, listRecent_pairwise s, ?_, ?_⟩
  · rw [listRecent_append_drop]
    exact List.perm_insertionSort newerOrEqual s.rows
  · have h := List.sorted_insertionSort newerOrEqual s.rows
    rw [← listRecent_append_drop, List.Sorted, List.pairwise_append] at h
    exact h.2.2
  · intro hnodup
    refine ((listRecent_pairwise s).and (listRecent_created_nodup s hnodup)).imp ?_
    intro a b hab
    exact lt_of_le_of_ne hab.1 (Ne.symm hab.2)

theorem listing_bounded_newest_first_witness :
    (listTransactions (run Store.empty distinctSecondOps)).store = run Store.empty distinctSecondOps ∧
    (listTransactions (run Store.empty distinctSecondOps)).sms = [] ∧
    ∃ rows rest : List Transaction,
      (listTransactions (run Store.empty distinctSecondOps)).response = .listing rows ∧
      rows.length = min 100 (run Store.empty distinctSecondOps).rows.length ∧
      List.Perm (rows ++ rest) (run Store.empty distinctSecondOps).rows ∧
      rows.Pairwise (fun a b => b.created_at ≤ a.created_at) ∧
      (∀ x ∈ rows, ∀ r ∈ rest, r.created_at ≤ x.created_at) ∧
      rows.Pairwise (fun a b => b.created_at < a.created_at) := by
  obtain ⟨h1, h2, rows, rest, h3, h4, h5, h6, h7, h8⟩ :=
    listing_bounded_newest_first (run Store.empty distinctSecondOps)
  exact ⟨h1, h2, rows, rest, h3, h4, h5, h6, h7, h8 (by decide)⟩

/-! ## Disclosure of credentials -/

theorem recredentialRow_code (f : Transaction → String × String) (t : Transaction) :
    (recredentialRow f t).code = t.code := by
  unfold recredentialRow
  split <;> rfl

theorem recredentialRow_status (f : Transaction → String × String) (t : Transaction) :
    (recredentialRow f t).status = t.status := by
  unfold recredentialRow
  split <;> rfl

theorem recredentialRow_keep (f : Transaction → String × String) (t : Transaction)
    (h : f t = (t.username, t.password)) : recredentialRow f t = t := by
  unfold recredentialRow
  split
  · rw [h]
  · rfl

theorem recredential_codes (f : Transaction → String × String) (s : Store) :
    (s.recredential f).codes = s.codes := by
  simp only [Store.codes, Store.recredential, List.map_map]
  apply List.map_congr_left
  intro t _
  exact recredentialRow_code f t

theorem requestAccess_view (env : Env) (phone package : Option String) (s : Store) :
    ((requestAccess env phone package s).response, (requestAccess env phone package s).sms) =
      requestView env.codeBytes phone package s.codes := by
  by_cases hv : passesValidation phone package = true
  · cases phone with
    | none => simp [passesValidation] at hv
    | some ph =>
      cases package with
      | none => simp [passesValidation] at hv
      | some pk =>
        rw [requestAccess_valid env ph pk s hv]
        simp only [requestView, hv, if_true]
        cases hprice : (getPackage pk).price with
        | none => simp [Store.insert]
        | some a =>
          by_cases hc : generateCode env.codeBytes ∈ s.codes
          · rw [insert_collision s _ _ _ _ _ _ _ _ hc]
            simp [hc]
          · rw [insert_fresh s _ _ _ _ _ _ _ _ hc]
            simp [hc]
  · have hv2 : passesValidation phone package = false := by simpa using hv
    rw [requestAccess_invalid env phone package s hv2]
    cases phone <;> cases package <;> simp_all [requestView]

theorem findPending_recredential (f : Transaction → String × String) (s : Store)
    (code : Option String) :
    (s.recredential f).findPending code = (s.findPending code).map (recredentialRow f) := by
  cases code with
  | none => rfl
  | some c =>
    simp only [Store.findPending, Store.recredential, List.find?_map]
    congr 2
    funext t
    simp only [Function.comp, recredentialRow_code, recredentialRow_status]

theorem confirmPayment_recredential_keep (f : Transaction → String × String) (s : Store)
    (env : Env) (code ref : Option String)
    (hkeep : ∀ t ∈ s.rows, some t.code = code → t.status = .pending → f t = (t.username, t.password)) :
    (confirmPayment env code ref (s.recredential f)).response =
      (confirmPayment env code ref s).response ∧
    (confirmPayment env code ref (s.recredential f)).sms = (confirmPayment env code ref s).sms := by
  cases hf : s.findPending code with
  | none =>
    have hf2 : (s.recredential f).findPending code = none := by
      rw [findPending_recredential, hf]
      rfl
    rw [confirmPayment_none env code ref s hf, confirmPayment_none env code ref _ hf2]
    exact ⟨rfl, rfl⟩
  | some row =>
    obtain ⟨hcode, hmem, hst⟩ := findPending_some s code row hf
    subst hcode
    have hrow : recredentialRow f row = row := recredentialRow_keep f row (hkeep row hmem rfl hst)
    have hf2 : (s.recredential f).findPending (some row.code) = some row := by
      rw [findPending_recredential, hf, Option.map_some', hrow]
    rw [confirmPayment_some env row.code ref s row hf,
      confirmPayment_some env row.code ref _ row hf2]
    exact ⟨rfl, rfl⟩

/-- C7, refuted as stated: with one pending transaction in the table, the answer of
`GET /api/transactions` is the full row, username and password included, and it
changes when the credentials of that pending row are changed. -/
theorem listing_discloses_pending_credentials :
    oneRequestRow ∈ oneRequestStore.rows ∧ oneRequestRow.status = .pending ∧
    oneRequestRow.username = "user1700000000000" ∧ oneRequestRow.password = "dead0f" ∧
    (handle sampleEnv .transactions oneRequestStore).response = .listing [oneRequestRow] ∧
    (handle sampleEnv .transactions (oneRequestStore.recredential (fun _ => ("", "")))).response ≠
      (handle sampleEnv .transactions oneRequestStore).response := by
  refine ⟨by decide, by decide, by decide, by decide, by decide, by decide⟩

theorem mem_listRecent_of_small (s : Store) (hsmall : s.rows.length ≤ 100) (t : Transaction)
    (ht : t ∈ s.rows) : t ∈ s.listRecent := by
  have hlen : (s.rows.insertionSort newerOrEqual).length ≤ 100 := by
    rw [List.length_insertionSort]
    exact hsmall
  rw [Store.listRecent, List.take_of_length_le hlen]
  exact (List.perm_insertionSort newerOrEqual s.rows).symm.subset ht

/-- C7, amended. Let `f` replace the username and password of the pending rows of a
store in any way.
(1) The response and the SMS of a request-access call are the same on the store
and on the re-credentialed store, also when the clock and the password bytes of
the call differ: they depend on no credentials, stored or freshly generated.
(2) A request-access call that passes validation on a catalog entry with a fresh
code answers success with the code and sends exactly the payment-instruction
text, made of the package name, the price and the code.
(3) The response and the SMS of a confirm-payment call are the same on both
stores as soon as `f` keeps the credentials of the pending rows with the
confirmed code: a confirmation shows the credentials of its own transaction only.
(4) In particular a failed confirm-payment is the same on both stores.
(5) In a store with unique codes, the confirm-payment for the code of a pending row
`t` does disclose them: its response carries `t.username` and `t.password` and its
SMS, sent to `t.phone`, is exactly the login text holding that username and that
password.
(6) `GET /api/transactions` answers with rows of the table as they are stored,
every column included, and with every row of the table when it holds at most
100, whatever their status. -/
theorem credentials_disclosure (s : Store) (f : Transaction → String × String) :
    (∀ (env env2 : Env) (phone package : Option String), env2.codeBytes = env.codeBytes →
      (requestAccess env2 phone package (s.recredential f)).response =
        (requestAccess env phone package s).response ∧
      (requestAccess env2 phone package (s.recredential f)).sms =
        (requestAccess env phone package s).sms) ∧
    (∀ (env : Env) (phone package : String) (p : Package),
      passesValidation (some phone) (some package) = true → getPackage package = .entry p →
      generateCode env.codeBytes ∉ s.codes →
      (requestAccess env (some phone) (some package) s).response =
        .requested (generateCode env.codeBytes)
          "Payment instructions sent! Check console for SMS." ∧
      (requestAccess env (some phone) (some package) s).sms =
        [⟨phone, "WiFi Access Request\nPackage: " ++ p.name ++ " - KSh " ++ toString p.price ++
          "\nCode: " ++ generateCode env.codeBytes ++
          "\n\nTo pay:\n1. Send KSh " ++ toString p.price ++
          " to 0700000000 (M-Pesa)\n2. Use code: " ++ generateCode env.codeBytes ++
          " to confirm payment\n3. You'll receive login details\n\nValid for 30 minutes."⟩]) ∧
    (∀ (env : Env) (code ref : Option String),
      (∀ t ∈ s.rows, some t.code = code → t.status = .pending → f t = (t.username, t.password)) →
      (confirmPayment env code ref (s.recredential f)).response =
        (confirmPayment env code ref s).response ∧
      (confirmPayment env code ref (s.recredential f)).sms = (confirmPayment env code ref s).sms) ∧
    (∀ (env : Env) (code ref : Option String) (st : Nat) (e : String),
      (confirmPayment env code ref s).response = .failure st e →
      (confirmPayment env code ref (s.recredential f)).response = .failure st e ∧
      (confirmPayment env code ref (s.recredential f)).sms = []) ∧
    (s.codes.Nodup → ∀ t ∈ s.rows, t.status = .pending → ∀ (env : Env) (ref : Option String),
      (confirmPayment env (some t.code) ref s).response =
        .confirmed t.username t.password "Check console for login details!" ∧
      (confirmPayment env (some t.code) ref s).sms =
        [⟨t.phone, "Payment confirmed!\nWiFi Login:\nUsername: " ++ t.username ++
          "\nPassword: " ++ t.password ++ "\nValid until: " ++ env.localeString t.expires_at ++
          "\n\nConnect to \"FreeWiFi-Packages\" and use these details."⟩]) ∧
    (listTransactions s).response = .listing s.listRecent ∧
    (∀ t ∈ s.listRecent, t ∈ s.rows) ∧
    (s.rows.length ≤ 100 → ∀ t ∈ s.rows, t ∈ s.listRecent) := by
  refine ⟨?_, ?_, ?_, ?_, ?_, rfl, ?_, ?_⟩
  · intro env env2 phone package hbytes
    have h1 := requestAccess_view env2 phone package (s.recredential f)
    have h2 := requestAccess_view env phone package s
    rw [recredential_codes, hbytes, ← h2] at h1
    exact ⟨congrArg Prod.fst h1, congrArg Prod.snd h1⟩
  · intro env phone package p hvalid hentry hfresh
    have hv := hvalid
    simp only [passesValidation, Bool.and_eq_true] at hv
    have hins := insert_fresh s env.now phone package p.price (generateCode env.codeBytes)
      (generateCredentials env.now env.passBytes).1 (generateCredentials env.now env.passBytes).2
      (expiryOf env.now package) hfresh
    unfold requestAccess
    simp only [hv.1.1, hv.1.2, hv.2, hentry, Lookup.price, hins, Bool.not_true, Bool.or_self,
      Bool.false_eq_true, if_false]
    exact ⟨rfl, rfl⟩
  · intro env code ref hkeep
    exact confirmPayment_recredential_keep f s env code ref hkeep
  · intro env code ref st e hfail
    have hkeep : ∀ t ∈ s.rows, some t.code = code → t.status = .pending →
        f t = (t.username, t.password) := by
      intro t ht hc hst
      subst hc
      have hne : s.findPending (some t.code) ≠ none := by
        simp only [Store.findPending, ne_eq, List.find?_eq_none, Bool.and_eq_true,
          decide_eq_true_eq, not_and, not_forall]
        exact ⟨t, ht, rfl, fun h => h hst⟩
      cases hf : s.findPending (some t.code) with
      | none => exact absurd hf hne
      | some row =>
        rw [confirmPayment_some env t.code ref s row hf] at hfail
        cases hfail
    obtain ⟨h1, h2⟩ := confirmPayment_recredential_keep f s env code ref hkeep
    rw [h1, h2]
    refine ⟨hfail, ?_⟩
    cases hf : s.findPending code with
    | none => rw [confirmPayment_none env code ref s hf]
    | some row =>
      obtain ⟨hcode, _, _⟩ := findPending_some s code row hf
      subst hcode
      rw [confirmPayment_some env row.code ref s row hf] at hfail
      cases hfail
  · intro hunique t ht hpending env ref
    have hf := findPending_unique s t hunique ht hpending
    unfold confirmPayment
    rw [hf]
    exact ⟨rfl, rfl⟩
  · intro t ht
    exact (List.perm_insertionSort newerOrEqual s.rows).subset (List.mem_of_mem_take ht)
  · intro hsmall t ht
    exact mem_listRecent_of_small s hsmall t ht

theorem credentials_disclosure_witness :
    ((requestAccess freshEnvLater (some "0733333333") (some "6h")
        (twoPendingStore.recredential keepFirst)).response =
        (requestAccess freshEnv (some "0733333333") (some "6h") twoPendingStore).response ∧
      (requestAccess freshEnvLater (some "0733333333") (some "6h")
        (twoPendingStore.recredential keepFirst)).sms =
        (requestAccess freshEnv (some "0733333333") (some "6h") twoPendingStore).sms) ∧
    ((requestAccess freshEnv (some "0733333333") (some "6h") twoPendingStore).response =
        .requested (generateCode freshEnv.codeBytes)
          "Payment instructions sent! Check console for SMS." ∧
      (requestAccess freshEnv (some "0733333333") (some "6h") twoPendingStore).sms =
        [⟨"0733333333", "WiFi Access Request\nPackage: " ++ (⟨"6h", 20, "6 Hours"⟩ : Package).name ++
          " - KSh " ++ toString (⟨"6h", 20, "6 Hours"⟩ : Package).price ++
          "\nCode: " ++ generateCode freshEnv.codeBytes ++
          "\n\nTo pay:\n1. Send KSh " ++ toString (⟨"6h", 20, "6 Hours"⟩ : Package).price ++
          " to 0700000000 (M-Pesa)\n2. Use code: " ++ generateCode freshEnv.codeBytes ++
          " to confirm payment\n3. You'll receive login details\n\nValid for 30 minutes."⟩]) ∧
    ((confirmPayment lateEnv (some "1A2B3C4D") none (twoPendingStore.recredential keepFirst)).response =
        (confirmPayment lateEnv (some "1A2B3C4D") none twoPendingStore).response ∧
      (confirmPayment lateEnv (some "1A2B3C4D") none (twoPendingStore.recredential keepFirst)).sms =
        (confirmPayment lateEnv (some "1A2B3C4D") none twoPendingStore).sms) ∧
    ((confirmPayment sampleEnv (some "FFFFFFFF") none
        (twoPendingStore.recredential keepFirst)).response =
        .failure 400 "Invalid code or already used" ∧
      (confirmPayment sampleEnv (some "FFFFFFFF") none
        (twoPendingStore.recredential keepFirst)).sms = []) ∧
    ((confirmPayment lateEnv (some oneRequestRow.code) none twoPendingStore).response =
        .confirmed oneRequestRow.username oneRequestRow.password
          "Check console for login details!" ∧
      (confirmPayment lateEnv (some oneRequestRow.code) none twoPendingStore).sms =
        [⟨oneRequestRow.phone, "Payment confirmed!\nWiFi Login:\nUsername: " ++
          oneRequestRow.username ++ "\nPassword: " ++ oneRequestRow.password ++
          "\nValid until: " ++ lateEnv.localeString oneRequestRow.expires_at ++
          "\n\nConnect to \"FreeWiFi-Packages\" and use these details."⟩]) ∧
    oneRequestRow ∈ twoPendingStore.listRecent ∧
    ((twoPendingStore.recredential keepFirst).rows ≠ twoPendingStore.rows ∧
      (requestAccess freshEnv (some "0733333333") (some "6h") twoPendingStore).response =
        .requested "0A0B0C0D" "Payment instructions sent! Check console for SMS." ∧
      (requestAccess freshEnv (some "0733333333") (some "6h") twoPendingStore).sms =
        [⟨"0733333333", "WiFi Access Request\nPackage: 6 Hours - KSh 20\nCode: 0A0B0C0D\n\nTo pay:\n1. Send KSh 20 to 0700000000 (M-Pesa)\n2. Use code: 0A0B0C0D to confirm payment\n3. You'll receive login details\n\nValid for 30 minutes."⟩] ∧
      (confirmPayment lateEnv (some "1A2B3C4D") none twoPendingStore).response =
        .confirmed "user1700000000000" "dead0f" "Check console for login details!" ∧
      (confirmPayment lateEnv (some "1A2B3C4D") none twoPendingStore).sms =
        [⟨"0711111111", "Payment confirmed!\nWiFi Login:\nUsername: user1700000000000\nPassword: dead0f\nValid until: 1700003600000\n\nConnect to \"FreeWiFi-Packages\" and use these details."⟩]) :=
  ⟨(credentials_disclosure twoPendingStore keepFirst).1 freshEnv freshEnvLater
      (some "0733333333") (some "6h") rfl,
   (credentials_disclosure twoPendingStore keepFirst).2.1 freshEnv "0733333333" "6h"
      ⟨"6h", 20, "6 Hours"⟩ (by decide) (by decide) (by decide),
   (credentials_disclosure twoPendingStore keepFirst).2.2.1 lateEnv (some "1A2B3C4D") none
      (by decide),
   (credentials_disclosure twoPendingStore keepFirst).2.2.2.1 sampleEnv (some "FFFFFFFF") none
      400 "Invalid code or already used" (by decide),
   (credentials_disclosure twoPendingStore keepFirst).2.2.2.2.1 (by decide) oneRequestRow
      (by decide) (by decide) lateEnv none,
   (credentials_disclosure twoPendingStore keepFirst).2.2.2.2.2.2.2 (by decide) oneRequestRow
      (by decide),
   ⟨by decide, by decide, by rfl, by decide, by rfl⟩⟩

end WifiBilling
